import Mathlib

/-!
Shallow embedding of the Pratt-parser calculator in `src/main.rs`.

The source is a single Rust file with a lexer (`Lexer::new`), a
precedence-climbing parser (`Expr::parse_expr` with the power table
`Expr::infix_binding_power`), an evaluator (`Expr::eval` over `f32`), a
`Display` rendering, and a REPL `main` loop.

Modelling decisions, each marked at its definition:
* Rust panics become `Except` errors; each panic site gets its own error
  constructor so distinct failure messages stay distinct.
* The binding powers are the `f32` constants 0.0, 1.0, 1.1, 2.0, 2.1 and are
  only ever compared with `<` among themselves; we scale them by ten to the
  naturals 0, 10, 11, 20, 21, which have exactly the same order.
* `f32` values are modelled by `FVal`: an exact rational together with the
  IEEE-754 special values +inf, -inf and NaN.  All arithmetic reached by the
  claims is exact in `f32` (small integers and exact quotients), so no
  rounding is modelled; negative zero cannot arise in any parser-built tree
  (subtrees of `*` and `/` contain only digits, `*` and `/`, hence are
  never negative finite numbers).
* The Rust lexer stores its token vector reversed and pops from the back;
  we store the tokens in forward order and read from the front, which
  consumes the identical sequence.
* The recursion of `parse_expr` (an outer recursive call plus an inner
  `loop`) is embedded with explicit fuel; `Expr.from_str` supplies more
  fuel than the token count so the fuel sentinel is never reached there.
-/

/-- `Token`: tagged union from the source (`Atom(char)`, `Op(char)`, `Eof`). -/
inductive Token where
  | Atom : Char → Token
  | Op : Char → Token
  | Eof : Token
deriving DecidableEq, Repr

/-- Rust's `char::is_ascii_whitespace`: space, tab, newline, form feed,
carriage return. -/
def isAsciiWhitespace (c : Char) : Bool :=
  c = ' ' || c = '\t' || c = '\n' || c = '\x0C' || c = '\r'

/-- The per-character classification in `Lexer::new`: digits and ASCII
letters become `Atom`, everything else becomes `Op`. -/
def classify (c : Char) : Token :=
  if ('0' ≤ c && c ≤ '9') || ('a' ≤ c && c ≤ 'z') || ('A' ≤ c && c ≤ 'Z') then
    Token.Atom c
  else
    Token.Op c

/-- The whitespace filter in `Lexer::new`. -/
def stripWs (input : String) : List Char :=
  input.toList.filter (fun c => !isAsciiWhitespace c)

/-- `Lexer`: the token stream.  The Rust struct keeps the vector reversed and
pops from the back; we keep forward order and read from the front, consuming
the same sequence. -/
structure Lexer where
  tokens : List Token
deriving DecidableEq, Repr

/-- `Lexer::new`. -/
def Lexer.new (input : String) : Lexer :=
  ⟨(stripWs input).map classify⟩

/-- `Lexer::next`: pop the next token, `Eof` when exhausted. -/
def Lexer.next (l : Lexer) : Token × Lexer :=
  (l.tokens.headD Token.Eof, ⟨l.tokens.tail⟩)

/-- `Lexer::peek`. -/
def Lexer.peek (l : Lexer) : Token :=
  l.tokens.headD Token.Eof

/-- `Expr`: the parse tree (`Atom(char)` or `Op(char, Vec<Expr>)`). -/
inductive Expr where
  | Atom : Char → Expr
  | Op : Char → List Expr → Expr
deriving Repr

mutual

/-- Decidable equality for the nested inductive `Expr` (the `deriving`
handler does not support nesting). -/
def Expr.decEq : (a b : Expr) → Decidable (a = b)
  | .Atom a, .Atom b =>
    if h : a = b then .isTrue (by rw [h]) else .isFalse (by simp [h])
  | .Atom _, .Op _ _ => .isFalse (by simp)
  | .Op _ _, .Atom _ => .isFalse (by simp)
  | .Op a l1, .Op b l2 =>
    if h : a = b then
      match Expr.decEqList l1 l2 with
      | .isTrue hl => .isTrue (by rw [h, hl])
      | .isFalse hl => .isFalse (by simp [h, hl])
    else .isFalse (by simp [h])

/-- Decidable equality on lists of `Expr`. -/
def Expr.decEqList : (l1 l2 : List Expr) → Decidable (l1 = l2)
  | [], [] => .isTrue rfl
  | [], _ :: _ => .isFalse (by simp)
  | _ :: _, [] => .isFalse (by simp)
  | x :: xs, y :: ys =>
    match Expr.decEq x y, Expr.decEqList xs ys with
    | .isTrue h1, .isTrue h2 => .isTrue (by rw [h1, h2])
    | .isFalse h1, _ => .isFalse (by simp [h1])
    | _, .isFalse h2 => .isFalse (by simp [h2])

end

instance : DecidableEq Expr := Expr.decEq

/-- The parse-time panics, one constructor per panic site:
`badToken t` is `panic!("bad token: {:?}", t)` (a parse step consuming a
non-`Atom` — the malformed-start error), `badOpToken` is
`panic!("Bad token")` (an `Atom` where an operator was expected), `badOp c`
is `panic!("bad op: {:?}", c)` (the unknown-operator error), and `outOfFuel`
is the fuel sentinel of the embedding, never the code's behaviour. -/
inductive ParseError where
  | badToken : Token → ParseError
  | badOpToken : ParseError
  | badOp : Char → ParseError
  | outOfFuel : ParseError
deriving DecidableEq, Repr

/-- `Expr::infix_binding_power`, with the `f32` pairs (1.0, 1.1) and
(2.0, 2.1) scaled by ten to (10, 11) and (20, 21): only their `<` order is
ever used. -/
def binding_power (op : Char) : Except ParseError (Nat × Nat) :=
  match op with
  | '+' | '-' => .ok (10, 11)
  | '*' | '/' => .ok (20, 21)
  | c => .error (.badOp c)

mutual

/-- `Expr::parse_expr`, fueled.  Consumes one token as the left-hand side —
anything but an `Atom` is the fatal `bad token: {:?}` panic — then enters the
operator loop. -/
def Expr.parse_expr : Nat → Lexer → Nat → Except ParseError (Expr × Lexer)
  | 0, _, _ => .error .outOfFuel
  | fuel + 1, lexer, min_bp =>
    match Lexer.next lexer with
    | (Token.Atom c, lexer1) => Expr.parse_loop fuel (Expr.Atom c) lexer1 min_bp
    | (t, _) => .error (.badToken t)

/-- The `loop` body of `Expr::parse_expr`: peek an operator, stop on `Eof` or
on a left binding power below `min_bp`, otherwise consume it, parse the
right-hand side with the operator's right binding power, and fold the result
into the left-hand side. -/
def Expr.parse_loop : Nat → Expr → Lexer → Nat → Except ParseError (Expr × Lexer)
  | 0, _, _, _ => .error .outOfFuel
  | fuel + 1, lhs, lexer, min_bp =>
    match Lexer.peek lexer with
    | Token.Eof => .ok (lhs, lexer)
    | Token.Op op =>
      match binding_power op with
      | .error e => .error e
      | .ok (l_bp, r_bp) =>
        if l_bp < min_bp then .ok (lhs, lexer)
        else
          match Expr.parse_expr fuel (Lexer.next lexer).2 r_bp with
          | .error e => .error e
          | .ok (rhs, lexer2) => Expr.parse_loop fuel (Expr.Op op [lhs, rhs]) lexer2 min_bp
    | Token.Atom _ => .error .badOpToken

end

/-- `Expr::from_str`: lex, then parse with `min_bp = 0`.  The fuel
`2 * length + 2` exceeds the number of parser steps possible on the stream
(each step consumes a token or immediately returns). -/
def Expr.from_str (input : String) : Except ParseError Expr :=
  let lexer := Lexer.new input
  match Expr.parse_expr (2 * lexer.tokens.length + 2) lexer 0 with
  | .error e => .error e
  | .ok (e, _) => .ok e

/-- The evaluator's value type, modelling `f32`: an exact rational or an
IEEE-754 special value.  Every arithmetic result reached by the claims is
exactly representable in `f32`, so rounding is not modelled; negative zero
is not representable here and is unreachable in parser-built trees. -/
inductive FVal where
  | finite : ℚ → FVal
  | inf : FVal
  | negInf : FVal
  | nan : FVal
deriving DecidableEq, Repr

/-- IEEE-754 addition on the model. -/
def FVal.add : FVal → FVal → FVal
  | .nan, _ => .nan
  | _, .nan => .nan
  | .inf, .negInf => .nan
  | .negInf, .inf => .nan
  | .inf, _ => .inf
  | _, .inf => .inf
  | .negInf, _ => .negInf
  | _, .negInf => .negInf
  | .finite a, .finite b => .finite (a + b)

/-- IEEE-754 subtraction on the model. -/
def FVal.sub : FVal → FVal → FVal
  | .nan, _ => .nan
  | _, .nan => .nan
  | .inf, .inf => .nan
  | .negInf, .negInf => .nan
  | .inf, _ => .inf
  | .negInf, _ => .negInf
  | _, .inf => .negInf
  | _, .negInf => .inf
  | .finite a, .finite b => .finite (a - b)

/-- IEEE-754 multiplication on the model. -/
def FVal.mul : FVal → FVal → FVal
  | .nan, _ => .nan
  | _, .nan => .nan
  | .inf, .inf => .inf
  | .inf, .negInf => .negInf
  | .negInf, .inf => .negInf
  | .negInf, .negInf => .inf
  | .inf, .finite b => if 0 < b then .inf else if b < 0 then .negInf else .nan
  | .negInf, .finite b => if 0 < b then .negInf else if b < 0 then .inf else .nan
  | .finite a, .inf => if 0 < a then .inf else if a < 0 then .negInf else .nan
  | .finite a, .negInf => if 0 < a then .negInf else if a < 0 then .inf else .nan
  | .finite a, .finite b => .finite (a * b)

/-- IEEE-754 division on the model (the model has no negative zero, so a
zero divisor counts as positive zero — the only zero parser-built trees can
produce). -/
def FVal.div : FVal → FVal → FVal
  | .nan, _ => .nan
  | _, .nan => .nan
  | .inf, .inf => .nan
  | .inf, .negInf => .nan
  | .negInf, .inf => .nan
  | .negInf, .negInf => .nan
  | .inf, .finite b => if b < 0 then .negInf else .inf
  | .negInf, .finite b => if b < 0 then .inf else .negInf
  | .finite _, .inf => .finite 0
  | .finite _, .negInf => .finite 0
  | .finite a, .finite b =>
    if b = 0 then
      if a = 0 then .nan else if 0 < a then .inf else .negInf
    else
      .finite (a / b)

/-- The evaluation-time panics, one constructor per panic site:
`nonDigitAtom c` is the `unreachable!()` on a non-digit atom, `noOperand`
is the `first()`/`last()` `unwrap` on an empty operand vector, and
`unsupportedOp c` is `panic!("Unsupported operator")`. -/
inductive EvalError where
  | nonDigitAtom : Char → EvalError
  | noOperand : EvalError
  | unsupportedOp : Char → EvalError
deriving DecidableEq, Repr

/-- The operator dispatch inside `Expr::eval`. -/
def applyOp (op : Char) (lhs rhs : FVal) : Except EvalError FVal :=
  match op with
  | '+' => .ok (lhs.add rhs)
  | '-' => .ok (lhs.sub rhs)
  | '*' => .ok (lhs.mul rhs)
  | '/' => .ok (lhs.div rhs)
  | c => .error (.unsupportedOp c)

mutual

/-- `Expr::eval`: digits map through `to_digit` to their value; the left
operand is `operands.first()` (`unwrap` of `None` on an empty vector is the
`noOperand` panic), the right operand is `operands.last()` (via
`Expr.evalLast`, which cannot fail when the caller reaches it on a
non-empty list), evaluated left before right. -/
def Expr.eval : Expr → Except EvalError FVal
  | .Atom a =>
    if '0' ≤ a && a ≤ '9' then .ok (.finite ((a.toNat - '0'.toNat : ℕ) : ℚ))
    else .error (.nonDigitAtom a)
  | .Op op operands =>
    match Expr.evalFirst operands with
    | .error e => .error e
    | .ok lhs =>
      match Expr.evalLast operands with
      | .error e => .error e
      | .ok rhs => applyOp op lhs rhs

/-- `operands.first().unwrap().eval()`: evaluate the first element of the
operand list (`unwrap` of `None` on an empty vector is the `noOperand`
panic). -/
def Expr.evalFirst : List Expr → Except EvalError FVal
  | [] => .error .noOperand
  | e :: _ => Expr.eval e

/-- `operands.last().unwrap().eval()`: evaluate the last element of the
operand list (only ever reached on a non-empty list, since `evalFirst`
has already failed otherwise). -/
def Expr.evalLast : List Expr → Except EvalError FVal
  | [] => .error .noOperand
  | [e] => Expr.eval e
  | _ :: es => Expr.evalLast es

end

mutual

/-- The `Display` implementation for `Expr`: an atom prints as its character,
an operator node as `(op child child …)`. -/
def Expr.render : Expr → String
  | .Atom c => c.toString
  | .Op head rest => "(" ++ head.toString ++ Expr.renderList rest ++ ")"

/-- The `for s in rest { write!(f, " {}", s) }` loop of `Display`. -/
def Expr.renderList : List Expr → String
  | [] => ""
  | e :: es => " " ++ Expr.render e ++ Expr.renderList es

end

/-- Decidable equality for `Except` results (not derived in core). -/
instance {ε α : Type} [DecidableEq ε] [DecidableEq α] : DecidableEq (Except ε α) := fun a b =>
  match a, b with
  | .error e1, .error e2 =>
    if h : e1 = e2 then .isTrue (by rw [h]) else .isFalse (by simp [h])
  | .error _, .ok _ => .isFalse (by simp)
  | .ok _, .error _ => .isFalse (by simp)
  | .ok v1, .ok v2 =>
    if h : v1 = v2 then .isTrue (by rw [h]) else .isFalse (by simp [h])

/-- Rust's `Display` for `f32`, modelled at the values this program can
print: integer values print with no decimal point, infinities as
`inf`/`-inf`, NaN as `NaN`.  (A non-integer finite value is shown as a
fraction here; no claim depends on one.) -/
def FVal.fmt : FVal → String
  | .finite q => if q.den = 1 then toString q.num else toString q
  | .inf => "inf"
  | .negInf => "-inf"
  | .nan => "NaN"

/-- Rust's `str::trim` (leading and trailing whitespace removed), over the
whitespace characters that occur in this program's input lines. -/
def rustTrim (s : String) : String :=
  ⟨((s.toList.dropWhile Char.isWhitespace).reverse.dropWhile Char.isWhitespace).reverse⟩

/-- One iteration of the REPL loop in `main`, as the result line printed
for the given input line: `main` checks the trimmed line for the `exit`
command, parses (`Expr::from_str`), and prints `println!("{}", expr.eval())`
— only the numeric result.  A parse or eval panic aborts the process and no
result line is printed (`none`). -/
def mainLineOutput (line : String) : Option String :=
  if rustTrim line = "exit" then none
  else
    match Expr.from_str line with
    | .error _ => none
    | .ok e =>
      match e.eval with
      | .error _ => none
      | .ok v => some v.fmt

/-- The shape of parser-built trees: every operator node carries one of the
four arithmetic operators and exactly the two children `[lhs, rhs]`
constructed by `parse_expr`. -/
inductive ExprWF : Expr → Prop where
  | atom : ∀ c, ExprWF (Expr.Atom c)
  | node : ∀ c l r, (c = '+' ∨ c = '-' ∨ c = '*' ∨ c = '/') →
      ExprWF l → ExprWF r → ExprWF (Expr.Op c [l, r])

/-! ### Helper lemmas -/

/-- The whitespace test of the lexer agrees with the library's whitespace
predicate extended by the form feed character. -/
lemma isAsciiWhitespace_eq (c : Char) :
    isAsciiWhitespace c = (c.isWhitespace || c = '\x0C') := by
  rw [Bool.eq_iff_iff]
  simp [isAsciiWhitespace, Char.isWhitespace]
  tauto

/-- The letter ranges of the lexer agree with the library's ASCII-letter
predicate. -/
lemma letterRanges_eq (c : Char) :
    (('a' ≤ c && c ≤ 'z') || ('A' ≤ c && c ≤ 'Z')) = c.isAlpha := by
  rw [Bool.eq_iff_iff]
  simp [Char.isAlpha, Char.isUpper, Char.isLower]
  tauto

/-- The character classification of the lexer, stated with the library's
digit and letter predicates. -/
lemma classify_spec (c : Char) :
    classify c = if c.isDigit || c.isAlpha then Token.Atom c else Token.Op c := by
  have h1 : (('0' ≤ c && c ≤ '9') || ('a' ≤ c && c ≤ 'z') || ('A' ≤ c && c ≤ 'Z'))
      = (c.isDigit || c.isAlpha) := by
    rw [Bool.or_assoc, letterRanges_eq]
    rfl
  unfold classify
  simp only [h1]

/-! ### Claims -/

/-- Claim C3: `tokenize` is a total pure function: every input succeeds
(the empty input yields no tokens), every ASCII whitespace character is
removed, and each remaining character `c` maps, in input order, to
`Atom(c)` when it is an ASCII digit or letter and to `Op(c)` otherwise. -/
theorem claim_c3_tokenize :
    (∀ s : String,
      Lexer.new s =
        ⟨(s.toList.filter (fun c => !(c.isWhitespace || c = '\x0C'))).map
          (fun c => if c.isDigit || c.isAlpha then Token.Atom c else Token.Op c)⟩) ∧
    Lexer.new "" = ⟨[]⟩ := by
  constructor
  · intro s
    unfold Lexer.new stripWs
    have hf : (fun c => !isAsciiWhitespace c)
        = (fun c => !(c.isWhitespace || c = '\x0C')) := by
      funext c
      rw [isAsciiWhitespace_eq]
    have hm : classify
        = (fun c => if c.isDigit || c.isAlpha then Token.Atom c else Token.Op c) := by
      funext c
      exact classify_spec c
    rw [hf, hm]
  · decide

/-- Claim C1: multiplicative operators bind tighter than additive ones:
`"1+2*3"` parses to the tree rendered `(+ 1 (* 2 3))` evaluating to 7, and
`"1*2+3"` parses to the tree rendered `(+ (* 1 2) 3)` evaluating to 5. -/
theorem claim_c1_precedence :
    Expr.from_str "1+2*3" =
      .ok (Expr.Op '+' [Expr.Atom '1', Expr.Op '*' [Expr.Atom '2', Expr.Atom '3']]) ∧
    (Expr.Op '+' [Expr.Atom '1', Expr.Op '*' [Expr.Atom '2', Expr.Atom '3']]).render
      = "(+ 1 (* 2 3))" ∧
    (Expr.Op '+' [Expr.Atom '1', Expr.Op '*' [Expr.Atom '2', Expr.Atom '3']]).eval
      = .ok (.finite 7) ∧
    Expr.from_str "1*2+3" =
      .ok (Expr.Op '+' [Expr.Op '*' [Expr.Atom '1', Expr.Atom '2'], Expr.Atom '3']) ∧
    (Expr.Op '+' [Expr.Op '*' [Expr.Atom '1', Expr.Atom '2'], Expr.Atom '3']).render
      = "(+ (* 1 2) 3)" ∧
    (Expr.Op '+' [Expr.Op '*' [Expr.Atom '1', Expr.Atom '2'], Expr.Atom '3']).eval
      = .ok (.finite 5) := by
  refine ⟨by decide, by decide, ?_, by decide, by decide, ?_⟩ <;>
    · simp [Expr.eval, Expr.evalFirst, Expr.evalLast, applyOp, FVal.add, FVal.mul]
      norm_num

/-- Claim C2: operators of equal precedence associate strictly left:
`"1-2-3"` parses to the tree rendered `(- (- 1 2) 3)` evaluating to -4, and
`"8/4/2"` parses to the tree rendered `(/ (/ 8 4) 2)` evaluating to 1. -/
theorem claim_c2_left_assoc :
    Expr.from_str "1-2-3" =
      .ok (Expr.Op '-' [Expr.Op '-' [Expr.Atom '1', Expr.Atom '2'], Expr.Atom '3']) ∧
    (Expr.Op '-' [Expr.Op '-' [Expr.Atom '1', Expr.Atom '2'], Expr.Atom '3']).render
      = "(- (- 1 2) 3)" ∧
    (Expr.Op '-' [Expr.Op '-' [Expr.Atom '1', Expr.Atom '2'], Expr.Atom '3']).eval
      = .ok (.finite (-4)) ∧
    Expr.from_str "8/4/2" =
      .ok (Expr.Op '/' [Expr.Op '/' [Expr.Atom '8', Expr.Atom '4'], Expr.Atom '2']) ∧
    (Expr.Op '/' [Expr.Op '/' [Expr.Atom '8', Expr.Atom '4'], Expr.Atom '2']).render
      = "(/ (/ 8 4) 2)" ∧
    (Expr.Op '/' [Expr.Op '/' [Expr.Atom '8', Expr.Atom '4'], Expr.Atom '2']).eval
      = .ok (.finite 1) := by
  refine ⟨by decide, by decide, ?_, by decide, by decide, ?_⟩ <;>
    · simp [Expr.eval, Expr.evalFirst, Expr.evalLast, applyOp, FVal.sub, FVal.div]
      norm_num

/-- Claim C4: parsing is insensitive to whitespace: any two lines with the
same whitespace-stripped content parse identically (hence render and
evaluate identically); in particular `"1 + 2"` and `"1+2"` parse to the
same tree, which evaluates to 3. -/
theorem claim_c4_whitespace :
    (∀ l1 l2 : String, stripWs l1 = stripWs l2 → Expr.from_str l1 = Expr.from_str l2) ∧
    Expr.from_str "1 + 2" = Expr.from_str "1+2" ∧
    Expr.from_str "1+2" = .ok (Expr.Op '+' [Expr.Atom '1', Expr.Atom '2']) ∧
    (Expr.Op '+' [Expr.Atom '1', Expr.Atom '2']).eval = .ok (.finite 3) ∧
    (Expr.Op '+' [Expr.Atom '1', Expr.Atom '2']).render = "(+ 1 2)" := by
  have key : ∀ l1 l2 : String, stripWs l1 = stripWs l2 →
      Expr.from_str l1 = Expr.from_str l2 := by
    intro l1 l2 h
    unfold Expr.from_str Lexer.new
    rw [h]
  refine ⟨key, key _ _ (by decide), by decide, ?_, by decide⟩
  simp [Expr.eval, Expr.evalFirst, Expr.evalLast, applyOp, FVal.add]
  norm_num

theorem claim_c4_whitespace_witness :
    stripWs "1   + 2" = stripWs "1+2" ∧ Expr.from_str "1   + 2" = Expr.from_str "1+2" :=
  ⟨by decide, claim_c4_whitespace.1 "1   + 2" "1+2" (by decide)⟩

/-- Claim C5: any parse step that consumes a non-`Atom` token fails with the
malformed-start (`bad token`) error; in particular the empty input fails
that way at the top level, and `"1+"` fails that way in the recursive
right-hand-side parse, which hits the exhausted stream (`Eof`). -/
theorem claim_c5_malformed_start :
    (∀ (fuel min_bp : Nat) (lexer : Lexer),
      (∀ c : Char, (Lexer.next lexer).1 ≠ Token.Atom c) →
      Expr.parse_expr (fuel + 1) lexer min_bp = .error (.badToken (Lexer.next lexer).1)) ∧
    Expr.from_str "" = .error (.badToken .Eof) ∧
    Expr.from_str "1+" = .error (.badToken .Eof) := by
  refine ⟨?_, by decide, by decide⟩
  intro fuel min_bp lexer h
  rcases hnext : Lexer.next lexer with ⟨t, lexer1⟩
  rw [hnext] at h
  simp only [Expr.parse_expr, hnext]

theorem claim_c5_malformed_start_witness :
    Expr.parse_expr 1 ⟨[Token.Op '+']⟩ 0 = .error (.badToken (Token.Op '+')) := by
  have := claim_c5_malformed_start.1 0 0 ⟨[Token.Op '+']⟩
    (by intro c; simp [Lexer.next])
  simpa [Lexer.next] using this

/-- Claim C6: requesting the binding power of any operator character outside
`{+,-,*,/}` fails with the fatal unknown-operator (`bad op`) error; in
particular `"1#2"` fails with the unknown-operator error for `#`. -/
theorem claim_c6_unknown_op :
    (∀ c : Char, c ≠ '+' → c ≠ '-' → c ≠ '*' → c ≠ '/' →
      binding_power c = .error (.badOp c)) ∧
    Expr.from_str "1#2" = .error (.badOp '#') := by
  refine ⟨?_, by decide⟩
  intro c h1 h2 h3 h4
  unfold binding_power
  split <;> simp_all

theorem claim_c6_unknown_op_witness :
    binding_power '#' = .error (.badOp '#') :=
  claim_c6_unknown_op.1 '#' (by decide) (by decide) (by decide) (by decide)

/-! ### Single-character inputs (claim C7) -/

lemma toString_toList (c : Char) : c.toString.toList = [c] := rfl

/-- A digit is not whitespace. -/
lemma digit_not_ws (c : Char) (h : c.isDigit = true) : isAsciiWhitespace c = false := by
  by_contra hws
  rw [Bool.not_eq_false] at hws
  simp only [isAsciiWhitespace, Bool.or_eq_true, decide_eq_true_eq] at hws
  rcases hws with (((rfl | rfl) | rfl) | rfl) | rfl <;> exact absurd h (by decide)

/-- A letter is not whitespace. -/
lemma alpha_not_ws (c : Char) (h : c.isAlpha = true) : isAsciiWhitespace c = false := by
  by_contra hws
  rw [Bool.not_eq_false] at hws
  simp only [isAsciiWhitespace, Bool.or_eq_true, decide_eq_true_eq] at hws
  rcases hws with (((rfl | rfl) | rfl) | rfl) | rfl <;> exact absurd h (by decide)

/-- A letter is not a digit (the letter ranges sit above the digit range). -/
lemma alpha_not_digit (c : Char) (h : c.isAlpha = true) : c.isDigit = false := by
  rw [← letterRanges_eq] at h
  simp only [Bool.or_eq_true, Bool.and_eq_true, decide_eq_true_eq] at h
  rw [show c.isDigit = ('0' ≤ c && c ≤ '9') from rfl, Bool.eq_false_iff]
  intro hcd
  simp only [Bool.and_eq_true, decide_eq_true_eq] at hcd
  obtain ⟨h0, h9⟩ := hcd
  rcases h with ⟨ha, _⟩ | ⟨hA, _⟩
  · exact absurd (le_trans ha h9) (by decide)
  · exact absurd (le_trans hA h9) (by decide)

/-- Digits are classified as atoms. -/
lemma classify_digit (c : Char) (h : c.isDigit = true) : classify c = Token.Atom c := by
  unfold classify
  rw [show ('0' ≤ c && c ≤ '9') = c.isDigit from rfl, h]
  simp

/-- Letters are classified as atoms. -/
lemma classify_alpha (c : Char) (h : c.isAlpha = true) : classify c = Token.Atom c := by
  unfold classify
  rw [Bool.or_assoc, letterRanges_eq, h]
  simp

/-- Lexing a single non-whitespace atom character. -/
lemma Lexer_new_singleton (c : Char) (hw : isAsciiWhitespace c = false)
    (hc : classify c = Token.Atom c) : Lexer.new c.toString = ⟨[Token.Atom c]⟩ := by
  unfold Lexer.new stripWs
  rw [toString_toList]
  simp [List.filter, hw, hc]

/-- Parsing a single-atom stream yields the atom leaf. -/
lemma parse_expr_single (c : Char) (fuel min_bp : Nat) :
    Expr.parse_expr (fuel + 2) ⟨[Token.Atom c]⟩ min_bp = .ok (.Atom c, ⟨[]⟩) := by
  simp [Expr.parse_expr, Expr.parse_loop, Lexer.next, Lexer.peek]

/-- `from_str` on a single atom character. -/
lemma from_str_singleton (c : Char) (hw : isAsciiWhitespace c = false)
    (hc : classify c = Token.Atom c) : Expr.from_str c.toString = .ok (.Atom c) := by
  simp only [Expr.from_str]
  rw [Lexer_new_singleton c hw hc]
  rw [show (2 * (Lexer.mk [Token.Atom c]).tokens.length + 2) = 2 + 2 from rfl]
  rw [parse_expr_single c 2]

/-- Claim C7: a digit atom parses to its leaf and evaluates to the digit's
numeric value (`to_digit`); a letter atom is accepted by lexer and parser
but evaluating it is the fatal non-digit-atom error. -/
theorem claim_c7_atom_eval (c : Char) :
    (c.isDigit = true →
      Expr.from_str c.toString = .ok (.Atom c) ∧
      (Expr.Atom c).eval = .ok (.finite ((c.toNat - '0'.toNat : ℕ) : ℚ))) ∧
    (c.isAlpha = true →
      Expr.from_str c.toString = .ok (.Atom c) ∧
      (Expr.Atom c).eval = .error (.nonDigitAtom c)) := by
  constructor
  · intro hd
    refine ⟨from_str_singleton c (digit_not_ws c hd) (classify_digit c hd), ?_⟩
    simp only [Expr.eval]
    rw [show ('0' ≤ c && c ≤ '9') = c.isDigit from rfl, hd]
    simp
  · intro ha
    refine ⟨from_str_singleton c (alpha_not_ws c ha) (classify_alpha c ha), ?_⟩
    simp only [Expr.eval]
    rw [show ('0' ≤ c && c ≤ '9') = c.isDigit from rfl, alpha_not_digit c ha]
    simp

theorem claim_c7_atom_eval_witness :
    (Expr.from_str '7'.toString = .ok (.Atom '7') ∧
      (Expr.Atom '7').eval = .ok (.finite (('7'.toNat - '0'.toNat : ℕ) : ℚ))) ∧
    (Expr.from_str 'a'.toString = .ok (.Atom 'a') ∧
      (Expr.Atom 'a').eval = .error (.nonDigitAtom 'a')) :=
  ⟨(claim_c7_atom_eval '7').1 (by decide), (claim_c7_atom_eval 'a').2 (by decide)⟩

/-! ### The parser-built-tree invariant (claim C8) -/

/-- An operator with a binding power is one of the four arithmetic ones. -/
lemma binding_power_ok (op : Char) (p : Nat × Nat) (h : binding_power op = .ok p) :
    op = '+' ∨ op = '-' ∨ op = '*' ∨ op = '/' := by
  unfold binding_power at h
  split at h <;> simp_all

/-- Every tree a successful `parse_expr`/`parse_loop` returns is
well-formed (the loop preserves well-formedness of the accumulator). -/
lemma parse_wf (fuel : Nat) :
    (∀ lexer min_bp e lexer2,
      Expr.parse_expr fuel lexer min_bp = .ok (e, lexer2) → ExprWF e) ∧
    (∀ lhs lexer min_bp e lexer2, ExprWF lhs →
      Expr.parse_loop fuel lhs lexer min_bp = .ok (e, lexer2) → ExprWF e) := by
  induction fuel with
  | zero =>
    constructor
    · intro lexer min_bp e lexer2 h
      simp [Expr.parse_expr] at h
    · intro lhs lexer min_bp e lexer2 hwf h
      simp [Expr.parse_loop] at h
  | succ n ih =>
    constructor
    · intro lexer min_bp e lexer2 h
      simp only [Expr.parse_expr] at h
      split at h
      · exact ih.2 _ _ _ _ _ (ExprWF.atom _) h
      · simp at h
    · intro lhs lexer min_bp e lexer2 hwf h
      simp only [Expr.parse_loop] at h
      split at h
      · rw [Except.ok.injEq, Prod.mk.injEq] at h
        exact h.1 ▸ hwf
      · rename_i op hpeek
        split at h
        · simp at h
        · rename_i l_bp r_bp hbp
          split at h
          · rw [Except.ok.injEq, Prod.mk.injEq] at h
            exact h.1 ▸ hwf
          · split at h
            · simp at h
            · rename_i rhs lexer3 hrhs
              exact ih.2 _ _ _ _ _
                (ExprWF.node op lhs rhs (binding_power_ok op _ hbp) hwf
                  ((ih.1 _ _ _ _) hrhs)) h
      · simp at h

/-- Every tree a successful `from_str` returns is well-formed. -/
lemma from_str_wf (line : String) (e : Expr) (h : Expr.from_str line = .ok e) :
    ExprWF e := by
  simp only [Expr.from_str] at h
  split at h
  · simp at h
  · rename_i e1 lexer2 hp
    rw [Except.ok.injEq] at h
    exact h ▸ (parse_wf _).1 _ _ _ _ hp

/-- Evaluating a well-formed tree can never reach the unsupported-operator
panic. -/
lemma wf_eval_not_unsupported (e : Expr) (hwf : ExprWF e) :
    ∀ c, e.eval ≠ .error (.unsupportedOp c) := by
  induction hwf with
  | atom a =>
    intro c
    simp only [Expr.eval]
    split <;> simp
  | node op l r hop hl hr ihl ihr =>
    intro c
    simp only [Expr.eval, Expr.evalFirst, Expr.evalLast]
    cases hle : l.eval with
    | error e1 =>
      simp only [hle]
      intro hcon
      rw [Except.error.injEq] at hcon
      exact ihl c (hcon ▸ hle)
    | ok v1 =>
      simp only [hle]
      cases hre : r.eval with
      | error e2 =>
        simp only [hre]
        intro hcon
        rw [Except.error.injEq] at hcon
        exact ihr c (hcon ▸ hre)
      | ok v2 =>
        simp only [hre]
        rcases hop with rfl | rfl | rfl | rfl <;> simp [applyOp]

/-- Claim C8: every tree built by a successful parse is well-formed — each
operator node carries one of `+`, `-`, `*`, `/` (with exactly the two
parser-built children) — so the evaluator's unsupported-operator branch is
unreachable on parser-built trees. -/
theorem claim_c8_parser_ops (line : String) (e : Expr)
    (h : Expr.from_str line = .ok e) :
    ExprWF e ∧ ∀ c, e.eval ≠ .error (.unsupportedOp c) :=
  ⟨from_str_wf line e h,
    wf_eval_not_unsupported e (from_str_wf line e h)⟩

theorem claim_c8_parser_ops_witness :
    ExprWF (Expr.Op '+' [Expr.Atom '1', Expr.Atom '2']) ∧
    (Expr.Op '+' [Expr.Atom '1', Expr.Atom '2']).eval ≠ .error (.unsupportedOp '#') :=
  ⟨(claim_c8_parser_ops "1+2" (Expr.Op '+' [Expr.Atom '1', Expr.Atom '2']) (by decide)).1,
    (claim_c8_parser_ops "1+2" (Expr.Op '+' [Expr.Atom '1', Expr.Atom '2']) (by decide)).2 '#'⟩

/-- Claim C10: division by a zero-valued right operand is not an error —
the `/` dispatch always returns a value, following the `f32` convention:
`1/0` evaluates to positive infinity and `0/0` to NaN. -/
theorem claim_c10_div_zero :
    (∀ v w : FVal, applyOp '/' v w = .ok (v.div w)) ∧
    Expr.from_str "1/0" = .ok (Expr.Op '/' [Expr.Atom '1', Expr.Atom '0']) ∧
    (Expr.Op '/' [Expr.Atom '1', Expr.Atom '0']).eval = .ok .inf ∧
    Expr.from_str "0/0" = .ok (Expr.Op '/' [Expr.Atom '0', Expr.Atom '0']) ∧
    (Expr.Op '/' [Expr.Atom '0', Expr.Atom '0']).eval = .ok .nan := by
  refine ⟨fun v w => rfl, by decide, ?_, by decide, ?_⟩ <;>
    simp [Expr.eval, Expr.evalFirst, Expr.evalLast, applyOp, FVal.div]

/-- Claim C9 (counterexample): for the evaluated input line `"1+2"` the
program's output line is just `"3"` — the rendering `"(+ 1 2)"` of the
parsed expression is not printed before the result (it is not even a prefix
of the output), contradicting the claim that each output equals
`render(expr)` followed by the numeric result. -/
theorem claim_c9_counterexample :
    Expr.from_str "1+2" = .ok (Expr.Op '+' [Expr.Atom '1', Expr.Atom '2']) ∧
    (Expr.Op '+' [Expr.Atom '1', Expr.Atom '2']).render = "(+ 1 2)" ∧
    mainLineOutput "1+2" = some "3" ∧
    ((Expr.Op '+' [Expr.Atom '1', Expr.Atom '2']).render.isPrefixOf "3") = false := by
  refine ⟨by decide, by decide, ?_, by decide⟩
  have he : (Expr.Op '+' [Expr.Atom '1', Expr.Atom '2']).eval = .ok (.finite 3) := by
    simp [Expr.eval, Expr.evalFirst, Expr.evalLast, applyOp, FVal.add]
    norm_num
  simp only [mainLineOutput,
    show Expr.from_str "1+2" = .ok (Expr.Op '+' [Expr.Atom '1', Expr.Atom '2']) from by decide,
    he]
  rw [if_neg (by decide : ¬ rustTrim "1+2" = "exit")]
  decide

/-- Claim C9 (amended): for every evaluated input line the program prints
only the formatted numeric result, `println!("{}", expr.eval())`; the
parsed expression's rendering is never part of the output. -/
theorem claim_c9_amended (line : String) (e : Expr) (v : FVal)
    (hexit : rustTrim line ≠ "exit")
    (hp : Expr.from_str line = .ok e) (he : e.eval = .ok v) :
    mainLineOutput line = some v.fmt := by
  simp only [mainLineOutput, hp, he]
  rw [if_neg hexit]

theorem claim_c9_amended_witness :
    mainLineOutput "1+2" = some ((FVal.finite 3).fmt) :=
  claim_c9_amended "1+2" (Expr.Op '+' [Expr.Atom '1', Expr.Atom '2']) (.finite 3)
    (by decide) (by decide)
    (by simp [Expr.eval, Expr.evalFirst, Expr.evalLast, applyOp, FVal.add]; norm_num)
